import Mathlib

set_option autoImplicit false

/-!
Shallow embedding of `mongoose-counters` (src/index.ts).

The plugin keeps one counter record per (id, reference) pair in a dedicated
collection.  Its behaviour decomposes into four pure pieces, each embedded
below directly from the source:

* the constructor of `MongooseCounter` (option merging and validation,
  lines 30-56), modelled by `mkMongooseCounter`;
* `addCounterToSchema` (lines 120-130), modelled by `addCounterToSchema`;
* the `pre('save')` hook installed by `addHooks` (lines 168-183), modelled by
  `preSave` (success path) and `preSaveWithAllocResult` (the try/catch
  structure, taking the outcome of the awaited storage call as an argument);
* the `resetCounter` static (lines 140-155), modelled by `resetCounter`,
  and the helper `getReferenceField` (lines 194-201).

The counter collection is modelled as a `List CounterRecord`; MongoDB's
atomic `findOneAndUpdate` with `{$inc: {counter: 1}}, {new: true,
upsert: true}` is modelled by `findOneAndUpdate`, which increments the first
record matching the exact `{id, reference}` filter and appends a fresh record
with counter 1 when none matches (the `$inc` on an absent field of an
upserted document yields 1).  JavaScript objects preserve string-key
insertion order and BSON equality of embedded documents is order sensitive,
so reference keys are modelled as ordered association lists built in the
order of `referenceFields`, exactly as the `reduce` in `getReferenceField`
builds them.
-/

namespace MongooseCounters

/-- A JavaScript value stored in a document field: a string (reference field
values are typed `StringMap` in the source) or a number (the counter value
written by `this.set(incField, res.counter)`). -/
inductive JsValue where
  | vStr (s : String)
  | vNum (n : Int)
deriving DecidableEq

/-- A plain JavaScript object (e.g. the result of `this.toJSON()`), as an
insertion-ordered association list. -/
abbrev JsDoc := List (String × JsValue)

/-- Property read `d[f]`; `none` models `undefined`. -/
def jsGet : JsDoc → String → Option JsValue
  | [], _ => none
  | (g, w) :: rest, f => if g = f then some w else jsGet rest f

/-- Property write `d[f] = v` (overwrites in place, appends if absent). -/
def jsSet : JsDoc → String → JsValue → JsDoc
  | [], f, v => [(f, v)]
  | (g, w) :: rest, f, v =>
    if g = f then (g, v) :: rest else (g, w) :: jsSet rest f v

/-- The reference key built by `getReferenceField`: one entry per configured
reference field, in configuration order, whose value is the document's value
at that field (`none` when the document leaves it undefined). -/
abbrev RefKey := List (String × Option JsValue)

/-- The resolved state of a `MongooseCounter` instance after its constructor
ran: the merged `options` object plus the `useReference` flag. -/
structure CounterState where
  id : String
  incField : String
  referenceFields : List String
  collectionName : String
  useReference : Bool
deriving DecidableEq

/-- Embeds `getReferenceField` (src/index.ts lines 194-201): `null` unless
`useReference` is set, otherwise the object `{f: document[f]}` accumulated
over `referenceFields` in order. -/
def getReferenceField (cfg : CounterState) (document : JsDoc) : Option RefKey :=
  if cfg.useReference = false then none
  else some (cfg.referenceFields.map fun f => (f, jsGet document f))

/-- One document of the counter collection (`CounterDocument`): the counter
family `id`, the `reference` value (`null` for global counters) and the
current `counter`. -/
structure CounterRecord where
  id : String
  reference : Option RefKey
  counter : Nat
deriving DecidableEq

/-- Embeds the atomic storage primitive used by the save hook:
`counterModel.findOneAndUpdate({id, reference}, {$inc: {counter: 1}},
{new: true, upsert: true})`.  The first record matching the exact filter is
incremented and its new counter returned; when no record matches, the upsert
inserts a record whose `$inc` from the absent field produces counter 1.
The compound unique index on `(id, reference)` keeps at most one matching
record, so taking the first match is exact. -/
def findOneAndUpdate : List CounterRecord → String → Option RefKey →
    Nat × List CounterRecord
  | [], i, ref => (1, [⟨i, ref, 1⟩])
  | r :: rest, i, ref =>
    if r.id = i ∧ r.reference = ref then
      (r.counter + 1, ⟨r.id, r.reference, r.counter + 1⟩ :: rest)
    else
      let p := findOneAndUpdate rest i ref
      (p.1, r :: p.2)

/-- A serialized sequence of `n` allocations on the same key, returning the
values in call order together with the final store.  Each call is one atomic
`findOneAndUpdate` step, so any concurrent execution of `n` calls is some
such serialization. -/
def allocateN (store : List CounterRecord) (i : String) (ref : Option RefKey) :
    Nat → List Nat × List CounterRecord
  | 0 => ([], store)
  | n + 1 =>
    let p := findOneAndUpdate store i ref
    let q := allocateN p.2 i ref n
    (p.1 :: q.1, q.2)

/-- The stored counter value of the record matching `{id, reference}`
exactly, if any (an observation on the store, used to state frame
properties). -/
def findCounter : List CounterRecord → String → Option RefKey → Option Nat
  | [], _, _ => none
  | r :: rest, i, ref =>
    if r.id = i ∧ r.reference = ref then some r.counter
    else findCounter rest i ref

/-- A mongoose document as seen by the save hook: the `isNew` flag and the
field values (`this.toJSON()`). -/
structure Doc where
  isNew : Bool
  data : JsDoc
deriving DecidableEq

/-- Field assignment `this.set(f, v)` on a document. -/
def setField (doc : Doc) (f : String) (v : JsValue) : Doc :=
  { doc with data := jsSet doc.data f v }

/-- An error produced by the storage layer and caught by the hook's
`catch (err) { next(err); }` block: a duplicate-key constraint violation
(`E11000`), or any other storage failure. -/
inductive MongoError where
  | duplicateKey (msg : String)
  | storage (msg : String)
deriving DecidableEq

/-- Embeds the `pre('save')` hook body (src/index.ts lines 168-183) with the
outcome of the awaited `findOneAndUpdate` call made explicit, mirroring the
try/catch: `if (!this.isNew) return next();` then on a fulfilled promise the
counter is assigned via `this.set(incField, res.counter)` and `next()` is
called, while a rejected promise reaches `next(err)`. -/
def preSaveWithAllocResult (cfg : CounterState) (store : List CounterRecord)
    (doc : Doc) (allocResult : Except MongoError (Nat × List CounterRecord)) :
    Except MongoError (Doc × List CounterRecord) :=
  if doc.isNew = false then .ok (doc, store)
  else
    match allocResult with
    | .ok (v, store') => .ok (setField doc cfg.incField (.vNum v), store')
    | .error e => .error e

/-- The save hook on the normal path: the storage call is the atomic
`findOneAndUpdate` on `{id: cfg.id, reference: getReferenceField(toJSON)}`. -/
def preSave (cfg : CounterState) (store : List CounterRecord) (doc : Doc) :
    Doc × List CounterRecord :=
  if doc.isNew = false then (doc, store)
  else
    let reference := getReferenceField cfg doc.data
    let p := findOneAndUpdate store cfg.id reference
    (setField doc cfg.incField (.vNum p.1), p.2)

/-- Embeds the `resetCounter` static (src/index.ts lines 140-155): the query
condition is `{id}` and, when a reference object (not the callback) is
supplied, also `reference: getReferenceField(reference)`; every matching
record gets `{$set: {counter: 0}}` with `multi: true`. -/
def resetCounter (cfg : CounterState) (store : List CounterRecord)
    (i : String) (reference : Option JsDoc) : List CounterRecord :=
  match reference with
  | none => store.map fun r => if r.id = i then { r with counter := 0 } else r
  | some m =>
    let cond := getReferenceField cfg m
    store.map fun r =>
      if r.id = i ∧ r.reference = cond then { r with counter := 0 } else r

/-- The `referenceFields` option as supplied: either a single field name or
an array (the constructor normalizes both to an array). -/
inductive RefFieldsInput where
  | single (f : String)
  | many (fs : List String)
deriving DecidableEq

/-- The `Partial<CounterOptions>` argument of the plugin: absent entries are
`none` and fall back to the defaults `{id: null, incField: '_id',
collectionName: 'counters'}`. -/
structure PartialCounterOptions where
  id : Option String := none
  incField : Option String := none
  referenceFields : Option RefFieldsInput := none
  collectionName : Option String := none

/-- A side effect the constructor performs; `createCounterModel` registers
the counter model (the storage state) under its derived model name. -/
inductive SetupEffect where
  | createCounterModel (modelName : String)
deriving DecidableEq

/-- Embeds the `MongooseCounter` constructor (src/index.ts lines 30-56)
together with the list of effects it performed: options are merged over the
defaults; a falsy `incField` throws; `referenceFields` is defaulted to
`[incField]` when absent (leaving `useReference` false) and normalized to an
array otherwise; using references with `id === null` throws; a falsy `id`
falls back to `incField`; only then is the counter model created. -/
def mkMongooseCounter (o : PartialCounterOptions) :
    Except String CounterState × List SetupEffect :=
  let incField := o.incField.getD "_id"
  if incField = "" then
    (.error "incField option does not null is mandatory", [])
  else
    let useReference := o.referenceFields.isSome
    let refFields : List String :=
      match o.referenceFields with
      | none => [incField]
      | some (.single f) => [f]
      | some (.many fs) => fs
    if useReference = true ∧ o.id = none then
      (.error "Cannot use reference fields without specifying a name", [])
    else
      let id :=
        match o.id with
        | none => incField
        | some s => if s = "" then incField else s
      let collectionName := o.collectionName.getD "counters"
      let modelName :=
        (collectionName.take 1).toUpper ++ collectionName.drop 1 ++ "_" ++ id
      (.ok { id := id, incField := incField, referenceFields := refFields,
             collectionName := collectionName, useReference := useReference },
       [.createCounterModel modelName])

/-- Embeds `addCounterToSchema` (src/index.ts lines 120-130) on a schema
modelled as its ordered list of paths (field name, instance name): an
undeclared increment field is added with instance `Number`; a declared one
whose instance is not `Number` throws; otherwise the schema is returned
unchanged. -/
def addCounterToSchema (schema : List (String × String)) (incField : String) :
    Except String (List (String × String)) :=
  match schema.find? (fun p => p.1 = incField) with
  | none => .ok (schema ++ [(incField, "Number")])
  | some p =>
    if p.2 = "Number" then .ok schema
    else
      .error ("Auto increment field \"" ++ incField ++
        "\" already present and not of type \"Number\"")

/-! Basic lemmas about the store primitive. -/

/-- When no stored record matches the filter, `findOneAndUpdate` upserts a
fresh record at counter 1 and returns 1. -/
theorem findOneAndUpdate_absent (i : String) (ref : Option RefKey) :
    ∀ store : List CounterRecord,
      (∀ r ∈ store, ¬(r.id = i ∧ r.reference = ref)) →
      findOneAndUpdate store i ref = (1, store ++ [⟨i, ref, 1⟩])
  | [], _ => rfl
  | r :: rest, h => by
    have hr : ¬(r.id = i ∧ r.reference = ref) := h r (List.mem_cons_self r rest)
    have ih := findOneAndUpdate_absent i ref rest
      (fun s hs => h s (List.mem_cons_of_mem r hs))
    simp only [findOneAndUpdate, if_neg hr, ih, List.cons_append]

/-- When the store decomposes around the unique matching record, that record
is incremented in place and its new counter returned. -/
theorem findOneAndUpdate_found (i : String) (ref : Option RefKey) (c : Nat)
    (post : List CounterRecord) :
    ∀ pre : List CounterRecord,
      (∀ r ∈ pre, ¬(r.id = i ∧ r.reference = ref)) →
      findOneAndUpdate (pre ++ ⟨i, ref, c⟩ :: post) i ref =
        (c + 1, pre ++ ⟨i, ref, c + 1⟩ :: post)
  | [], _ => by simp [findOneAndUpdate]
  | r :: rest, h => by
    have hr : ¬(r.id = i ∧ r.reference = ref) := h r (List.mem_cons_self r rest)
    have ih := findOneAndUpdate_found i ref c post rest
      (fun s hs => h s (List.mem_cons_of_mem r hs))
    simp only [List.cons_append, findOneAndUpdate, if_neg hr, List.append_eq, ih]

/-- Serialized allocations starting from a store holding the key at counter
`c` return the consecutive values `c+1, …, c+n` and leave the key at `c+n`;
every other record is untouched. -/
theorem allocateN_found (i : String) (ref : Option RefKey)
    (pre post : List CounterRecord)
    (hpre : ∀ r ∈ pre, ¬(r.id = i ∧ r.reference = ref)) :
    ∀ (n c : Nat),
      allocateN (pre ++ ⟨i, ref, c⟩ :: post) i ref n =
        (List.range' (c + 1) n, pre ++ ⟨i, ref, c + n⟩ :: post)
  | 0, c => by simp [allocateN]
  | n + 1, c => by
    have hstep := findOneAndUpdate_found i ref c post pre hpre
    have ih := allocateN_found i ref pre post hpre n (c + 1)
    have hcn : c + 1 + n = c + (n + 1) := by omega
    simp only [allocateN, hstep, ih, List.range'_succ, hcn]

/-- The `$set: {counter: 0}` update leaves a record's `id` untouched. -/
@[simp] theorem ite_reset_id (c : Prop) [Decidable c] (r : CounterRecord) :
    (if c then { r with counter := 0 } else r).id = r.id := by
  split <;> rfl

/-- The `$set: {counter: 0}` update leaves a record's `reference`
untouched. -/
@[simp] theorem ite_reset_reference (c : Prop) [Decidable c]
    (r : CounterRecord) :
    (if c then { r with counter := 0 } else r).reference = r.reference := by
  split <;> rfl

/-- Lookup of a field inside a stored reference key (an observation used to
compare reference keys field by field). -/
def refGet : RefKey → String → Option (Option JsValue)
  | [], _ => none
  | (g, w) :: rest, f => if g = f then some w else refGet rest f

/-- On a key built field-by-field over `fs`, looking up any `f ∈ fs` yields
the building function's value at `f`. -/
theorem refGet_map (g : String → Option JsValue) :
    ∀ (fs : List String) (f : String), f ∈ fs →
      refGet (fs.map fun x => (x, g x)) f = some (g f)
  | [], f, h => absurd h (List.not_mem_nil f)
  | x :: rest, f, h => by
    by_cases hx : x = f
    · subst hx
      simp [refGet]
    · have hf : f ∈ rest := by
        rcases List.mem_cons.1 h with h1 | h1
        · exact absurd h1.symm hx
        · exact h1
      simp [refGet, hx, refGet_map g rest f hf]

/-! Concrete fixtures used by the witnesses and the counterexample. -/

/-- A global-mode configuration (`incField: 'id'`, no reference fields), as
produced by the constructor for `{incField: 'id'}`. -/
def cfgGlobal : CounterState :=
  { id := "id", incField := "id", referenceFields := ["id"],
    collectionName := "counters", useReference := false }

/-- A scoped configuration as in the README scenario:
`{id: 'seq', incField: 'inhabitant_number',
referenceFields: ['country', 'city']}`. -/
def cfgScoped : CounterState :=
  { id := "seq", incField := "inhabitant_number",
    referenceFields := ["country", "city"],
    collectionName := "counters", useReference := true }

/-- A brand-new document with `country = "FR"`, `city = "Paris"`. -/
def docFR : Doc :=
  { isNew := true,
    data := [("country", .vStr "FR"), ("city", .vStr "Paris")] }

/-- A brand-new document with `country = "US"`, `city = "NYC"`. -/
def docUS : Doc :=
  { isNew := true,
    data := [("country", .vStr "US"), ("city", .vStr "NYC")] }

/-- An already-persisted document (`isNew = false`). -/
def docOld : Doc :=
  { isNew := false, data := [("name", .vStr "gaetano")] }

/-- The reference key the scoped configuration derives for `docFR`. -/
def refFR : RefKey :=
  [("country", some (.vStr "FR")), ("city", some (.vStr "Paris"))]

/-- The reference key the scoped configuration derives for `docUS`. -/
def refUS : RefKey :=
  [("country", some (.vStr "US")), ("city", some (.vStr "NYC"))]

/-! Claim theorems. -/

/-- C1: on a new document the save hook atomically locates the counter
record matching `(id, reference)` derived from the document, upserts it
(conceptually from 0) when absent, increments its counter by exactly one,
and assigns the new value to the increment field; in particular for a pair
never seen before the first allocation stores and assigns 1. -/
theorem allocation_increments_and_assigns (cfg : CounterState)
    (store : List CounterRecord) (doc : Doc) (hnew : doc.isNew = true) :
    ((∀ r ∈ store,
        ¬(r.id = cfg.id ∧ r.reference = getReferenceField cfg doc.data)) →
      preSave cfg store doc =
        (setField doc cfg.incField (.vNum 1),
          store ++ [⟨cfg.id, getReferenceField cfg doc.data, 1⟩])) ∧
    (∀ (pre post : List CounterRecord) (c : Nat),
      store = pre ++ ⟨cfg.id, getReferenceField cfg doc.data, c⟩ :: post →
      (∀ r ∈ pre,
        ¬(r.id = cfg.id ∧ r.reference = getReferenceField cfg doc.data)) →
      preSave cfg store doc =
        (setField doc cfg.incField (.vNum ((c : Int) + 1)),
          pre ++ ⟨cfg.id, getReferenceField cfg doc.data, c + 1⟩ :: post)) := by
  constructor
  · intro habs
    have h1 := findOneAndUpdate_absent cfg.id (getReferenceField cfg doc.data)
      store habs
    simp [preSave, hnew, h1]
  · intro pre post c hdec hclean
    subst hdec
    have h1 := findOneAndUpdate_found cfg.id (getReferenceField cfg doc.data)
      c post pre hclean
    simp [preSave, hnew, h1]

/-- Witness for C1 at concrete inputs: the very first FR/Paris insertion
under the scoped configuration gets value 1, and with the counter already at
4 the next insertion gets 5. -/
theorem allocation_increments_and_assigns_witness :
    preSave cfgScoped [] docFR =
      (setField docFR "inhabitant_number" (.vNum 1),
        [⟨"seq", some refFR, 1⟩]) ∧
    preSave cfgScoped [⟨"seq", some refFR, 4⟩] docFR =
      (setField docFR "inhabitant_number" (.vNum 5),
        [⟨"seq", some refFR, 5⟩]) := by
  constructor
  · have h := (allocation_increments_and_assigns cfgScoped [] docFR rfl).1
      (by simp)
    simpa [cfgScoped, docFR, refFR, getReferenceField, jsGet] using h
  · have h := (allocation_increments_and_assigns cfgScoped
      [⟨"seq", some refFR, 4⟩] docFR rfl).2 [] [] 4 (by decide) (by simp)
    simpa [cfgScoped, docFR, refFR, getReferenceField, jsGet] using h

/-- C2: any serialization of `n` atomic `findOneAndUpdate` allocations on
one previously unseen `(id, reference)` key returns exactly the values
`1, 2, …, n`, in order, with no duplicate and no gap. -/
theorem concurrent_allocations_consecutive (store : List CounterRecord)
    (i : String) (ref : Option RefKey)
    (h : ∀ r ∈ store, ¬(r.id = i ∧ r.reference = ref)) (n : Nat) :
    (allocateN store i ref n).1 = List.range' 1 n := by
  cases n with
  | zero => rfl
  | succ m =>
    have h1 := findOneAndUpdate_absent i ref store h
    have h2 := allocateN_found i ref store [] h m 1
    simp only [allocateN, h1]
    rw [show store ++ [(⟨i, ref, 1⟩ : CounterRecord)] =
      store ++ ⟨i, ref, 1⟩ :: [] from rfl, h2, List.range'_succ]

/-- Witness for C2: three allocations on the fresh FR/Paris key return
exactly `[1, 2, 3]`. -/
theorem concurrent_allocations_consecutive_witness :
    (allocateN [] "seq" (some refFR) 3).1 = [1, 2, 3] := by
  have h := concurrent_allocations_consecutive [] "seq" (some refFR)
    (by simp) 3
  simpa using h

/-- C7: the hook returns immediately on a document that is not new: no
allocation happens, the store is untouched and the document is returned
unchanged — also when the increment field of the existing document was
modified beforehand. -/
theorem no_allocation_on_update (cfg : CounterState)
    (store : List CounterRecord) (doc : Doc) (h : doc.isNew = false) :
    preSave cfg store doc = (doc, store) ∧
    (∀ v : JsValue,
      preSave cfg store (setField doc cfg.incField v) =
        (setField doc cfg.incField v, store)) := by
  constructor
  · simp [preSave, h]
  · intro v
    simp [preSave, setField, h]

/-- Witness for C7: saving an existing document, with or without a modified
increment field, changes nothing. -/
theorem no_allocation_on_update_witness :
    preSave cfgGlobal [⟨"id", some [("id", none)], 3⟩] docOld =
      (docOld, [⟨"id", some [("id", none)], 3⟩]) ∧
    preSave cfgGlobal [⟨"id", some [("id", none)], 3⟩]
        (setField docOld "id" (.vNum 99)) =
      (setField docOld "id" (.vNum 99), [⟨"id", some [("id", none)], 3⟩]) := by
  have h := no_allocation_on_update cfgGlobal
    [⟨"id", some [("id", none)], 3⟩] docOld rfl
  exact ⟨h.1, h.2 (.vNum 99)⟩

/-- C8: an allocation on one `(id, reference)` pair never changes the stored
counter of any other pair — global (`reference = null`) and scoped records
included. -/
theorem allocation_leaves_other_keys (i : String) (ref : Option RefKey)
    (i' : String) (ref' : Option RefKey) (hne : ¬(i' = i ∧ ref' = ref)) :
    ∀ store : List CounterRecord,
      findCounter (findOneAndUpdate store i ref).2 i' ref' =
        findCounter store i' ref'
  | [] => by
    have hnew : ¬(i = i' ∧ ref = ref') := by
      rintro ⟨h1, h2⟩
      exact hne ⟨h1.symm, h2.symm⟩
    simp only [findOneAndUpdate, findCounter]
    rw [if_neg hnew]
  | r :: rest => by
    by_cases hm : r.id = i ∧ r.reference = ref
    · have hr' : ¬(r.id = i' ∧ r.reference = ref') := by
        rintro ⟨h1, h2⟩
        exact hne ⟨h1.symm.trans hm.1, h2.symm.trans hm.2⟩
      simp only [findOneAndUpdate, findCounter, if_pos hm]
      rw [if_neg hr', if_neg hr']
    · have ih := allocation_leaves_other_keys i ref i' ref' hne rest
      by_cases hr' : r.id = i' ∧ r.reference = ref'
      · simp only [findOneAndUpdate, findCounter, if_neg hm]
        rw [if_pos hr', if_pos hr']
      · simp only [findOneAndUpdate, findCounter, if_neg hm]
        rw [if_neg hr', if_neg hr']
        exact ih

/-- Witness for C8: incrementing the FR/Paris counter leaves both the US/NYC
counter and a global counter unchanged. -/
theorem allocation_leaves_other_keys_witness :
    findCounter (findOneAndUpdate
        [⟨"id", none, 7⟩, ⟨"seq", some refUS, 1⟩] "seq" (some refFR)).2
      "seq" (some refUS) = some 1 ∧
    findCounter (findOneAndUpdate
        [⟨"id", none, 7⟩, ⟨"seq", some refUS, 1⟩] "seq" (some refFR)).2
      "id" none = some 7 := by
  constructor
  · have h := allocation_leaves_other_keys "seq" (some refFR) "seq"
      (some refUS) (by decide) [⟨"id", none, 7⟩, ⟨"seq", some refUS, 1⟩]
    rw [h]
    decide
  · have h := allocation_leaves_other_keys "seq" (some refFR) "id"
      none (by decide) [⟨"id", none, 7⟩, ⟨"seq", some refUS, 1⟩]
    rw [h]
    decide

/-- C3: supplying `referenceFields` while leaving the `id` option null makes
the constructor throw before it reaches `createCounterModel`: the result is
an error and the list of performed setup effects is empty, so no counter
model or storage state exists. -/
theorem reference_without_id_fails (o : PartialCounterOptions)
    (href : o.referenceFields.isSome = true) (hid : o.id = none) :
    ∃ e, mkMongooseCounter o = (.error e, []) := by
  by_cases hinc : o.incField.getD "_id" = ""
  · exact ⟨"incField option does not null is mandatory",
      by simp only [mkMongooseCounter, if_pos hinc]⟩
  · exact ⟨"Cannot use reference fields without specifying a name",
      by simp only [mkMongooseCounter, if_neg hinc,
        if_pos (And.intro href hid)]⟩

/-- Witness for C3: configuring `{referenceFields: ['country', 'city']}`
with no `id` fails with no setup effect performed. -/
theorem reference_without_id_fails_witness :
    ∃ e, mkMongooseCounter
      { referenceFields := some (.many ["country", "city"]) } =
        (.error e, []) :=
  reference_without_id_fails
    { referenceFields := some (.many ["country", "city"]) } rfl rfl

/-- C9: `addCounterToSchema` adds the increment field as a `Number` path
when it is undeclared, throws when it is declared with a non-`Number`
instance, and leaves the schema unchanged when it is already a `Number`. -/
theorem ensure_increment_field_cases (schema : List (String × String))
    (incField : String) :
    (schema.find? (fun p => p.1 = incField) = none →
      addCounterToSchema schema incField =
        .ok (schema ++ [(incField, "Number")])) ∧
    (∀ p, schema.find? (fun p => p.1 = incField) = some p →
      p.2 ≠ "Number" →
      ∃ msg, addCounterToSchema schema incField = .error msg) ∧
    (∀ p, schema.find? (fun p => p.1 = incField) = some p →
      p.2 = "Number" →
      addCounterToSchema schema incField = .ok schema) := by
  refine ⟨fun h => ?_, fun p hp hnum => ?_, fun p hp hnum => ?_⟩
  · simp [addCounterToSchema, h]
  · exact ⟨"Auto increment field \"" ++ incField ++
      "\" already present and not of type \"Number\"",
      by simp [addCounterToSchema, hp, hnum]⟩
  · simp [addCounterToSchema, hp, hnum]

/-- Witness for C9 on concrete schemas: an undeclared field is declared as
`Number`, a `String`-typed field is rejected, a `Number`-typed field leaves
the schema unchanged. -/
theorem ensure_increment_field_cases_witness :
    addCounterToSchema [("name", "String")] "id" =
      .ok [("name", "String"), ("id", "Number")] ∧
    (∃ msg, addCounterToSchema [("id", "String")] "id" = .error msg) ∧
    addCounterToSchema [("id", "Number")] "id" = .ok [("id", "Number")] := by
  refine ⟨?_, ?_, ?_⟩
  · exact (ensure_increment_field_cases [("name", "String")] "id").1
      (by decide)
  · exact (ensure_increment_field_cases [("id", "String")] "id").2.1
      ("id", "String") (by decide) (by decide)
  · exact (ensure_increment_field_cases [("id", "Number")] "id").2.2
      ("id", "Number") (by decide) rfl

/-- Counterexample to C6: the hook body has no retry — its try/catch passes
any rejection of the awaited `findOneAndUpdate` straight to `next(err)`.  On
a concrete new document whose storage call rejects with the duplicate-key
error raised when two first-time creations of the same counter record race,
the hook surfaces exactly that error to the caller. -/
theorem duplicate_key_surfaced_counterexample :
    preSaveWithAllocResult cfgScoped [] docFR
        (.error (.duplicateKey "E11000 duplicate key error")) =
      .error (.duplicateKey "E11000 duplicate key error") := by
  rfl

/-- C6 amended: a duplicate-key conflict (like every storage rejection)
during allocation for a new document is not retried; the hook propagates the
error unchanged to the save callback, aborting the insertion. -/
theorem allocation_error_propagates (cfg : CounterState)
    (store : List CounterRecord) (doc : Doc) (e : MongoError)
    (hnew : doc.isNew = true) :
    preSaveWithAllocResult cfg store doc (.error e) = .error e := by
  simp [preSaveWithAllocResult, hnew]

/-- Witness for the amended C6 at a concrete input. -/
theorem allocation_error_propagates_witness :
    preSaveWithAllocResult cfgScoped [⟨"seq", some refUS, 1⟩] docUS
        (.error (.storage "connection lost")) =
      .error (.storage "connection lost") :=
  allocation_error_propagates cfgScoped [⟨"seq", some refUS, 1⟩] docUS
    (.storage "connection lost") rfl

/-- C4: `resetCounter` with no reference sets the counter of every record
whose `id` matches the scope to 0 and leaves every other record unchanged;
matching zero records returns the store unchanged rather than failing; and
the next allocation on any key previously stored under that scope returns
1 again. -/
theorem reset_scope_zeroes_all (cfg : CounterState)
    (store : List CounterRecord) (i : String) :
    (∀ (k : Nat) (r : CounterRecord), store[k]? = some r → r.id = i →
      (resetCounter cfg store i none)[k]? = some { r with counter := 0 }) ∧
    (∀ (k : Nat) (r : CounterRecord), store[k]? = some r → r.id ≠ i →
      (resetCounter cfg store i none)[k]? = some r) ∧
    ((∀ r ∈ store, r.id ≠ i) → resetCounter cfg store i none = store) ∧
    (∀ (ref : Option RefKey) (pre post : List CounterRecord) (c : Nat),
      store = pre ++ ⟨i, ref, c⟩ :: post →
      (∀ r ∈ pre, ¬(r.id = i ∧ r.reference = ref)) →
      (findOneAndUpdate (resetCounter cfg store i none) i ref).1 = 1) := by
  refine ⟨fun k r hk hr => ?_, fun k r hk hr => ?_, fun hall => ?_,
    fun ref pre post c hdec hclean => ?_⟩
  · simp [resetCounter, List.getElem?_map, hk, hr]
  · simp [resetCounter, List.getElem?_map, hk, hr]
  · rw [resetCounter, List.map_congr_left fun r hr => if_neg (hall r hr),
      List.map_id']
  · subst hdec
    rw [resetCounter, List.map_append, List.map_cons, if_pos rfl]
    have hclean' : ∀ s ∈ pre.map fun r =>
        if r.id = i then { r with counter := 0 } else r,
        ¬(s.id = i ∧ s.reference = ref) := by
      intro s hs
      rcases List.mem_map.1 hs with ⟨r, hr, rfl⟩
      rintro ⟨h1, h2⟩
      exact hclean r hr ⟨by simpa using h1, by simpa using h2⟩
    have h := findOneAndUpdate_found i ref 0
      (post.map fun r => if r.id = i then { r with counter := 0 } else r)
      (pre.map fun r => if r.id = i then { r with counter := 0 } else r)
      hclean'
    rw [h]

/-- Witness for C4: resetting scope `"seq"` zeroes both its records, leaves
the global record alone, does nothing on a store without the scope, and the
next FR/Paris allocation returns 1. -/
theorem reset_scope_zeroes_all_witness :
    (resetCounter cfgScoped
        [⟨"seq", some refFR, 2⟩, ⟨"id", none, 7⟩] "seq" none)[0]? =
      some ⟨"seq", some refFR, 0⟩ ∧
    (resetCounter cfgScoped
        [⟨"seq", some refFR, 2⟩, ⟨"id", none, 7⟩] "seq" none)[1]? =
      some ⟨"id", none, 7⟩ ∧
    resetCounter cfgScoped [⟨"id", none, 7⟩] "seq" none = [⟨"id", none, 7⟩] ∧
    (findOneAndUpdate (resetCounter cfgScoped
        [⟨"seq", some refFR, 2⟩, ⟨"id", none, 7⟩] "seq" none)
      "seq" (some refFR)).1 = 1 := by
  have h := reset_scope_zeroes_all cfgScoped
    [⟨"seq", some refFR, 2⟩, ⟨"id", none, 7⟩] "seq"
  have h3 := reset_scope_zeroes_all cfgScoped [⟨"id", none, 7⟩] "seq"
  refine ⟨h.1 0 ⟨"seq", some refFR, 2⟩ rfl rfl, ?_, ?_, ?_⟩
  · exact h.2.1 1 ⟨"id", none, 7⟩ rfl (by decide)
  · exact h3.2.2.1 (by decide)
  · exact h.2.2.2 (some refFR) [] [⟨"id", none, 7⟩] 2 rfl (by simp)

/-- The value returned by an allocation is one more than the stored counter
of the matching record. -/
theorem findOneAndUpdate_fst_some (i : String) (ref : Option RefKey)
    (c : Nat) :
    ∀ store, findCounter store i ref = some c →
      (findOneAndUpdate store i ref).1 = c + 1
  | [], h => by simp [findCounter] at h
  | r :: rest, h => by
    by_cases hm : r.id = i ∧ r.reference = ref
    · rw [findCounter, if_pos hm] at h
      injection h with h
      simp only [findOneAndUpdate, if_pos hm, h]
    · rw [findCounter, if_neg hm] at h
      simp only [findOneAndUpdate, if_neg hm]
      exact findOneAndUpdate_fst_some i ref c rest h

/-- After a keyed reset, the record that matched the derived condition holds
counter 0. -/
theorem reset_key_findCounter_matching (cfg : CounterState) (i : String)
    (m : JsDoc) (c : Nat) :
    ∀ store,
      findCounter store i (getReferenceField cfg m) = some c →
      findCounter (resetCounter cfg store i (some m)) i
        (getReferenceField cfg m) = some 0
  | [], h => by simp [findCounter] at h
  | r :: rest, h => by
    by_cases hm : r.id = i ∧ r.reference = getReferenceField cfg m
    · simp only [resetCounter, List.map_cons]
      rw [if_pos hm]
      simp only [findCounter]
      rw [if_pos hm]
    · rw [findCounter, if_neg hm] at h
      have ih := reset_key_findCounter_matching cfg i m c rest h
      simp only [resetCounter, List.map_cons]
      rw [if_neg hm]
      simp only [findCounter]
      rw [if_neg hm]
      simpa [resetCounter] using ih

/-- A keyed reset does not change the stored counter of any record outside
the `(i, derived key)` pair. -/
theorem reset_key_findCounter_other (cfg : CounterState) (i : String)
    (m : JsDoc) (i' : String) (ref' : Option RefKey)
    (hne : ¬(i' = i ∧ ref' = getReferenceField cfg m)) :
    ∀ store,
      findCounter (resetCounter cfg store i (some m)) i' ref' =
        findCounter store i' ref'
  | [] => rfl
  | r :: rest => by
    have ih := reset_key_findCounter_other cfg i m i' ref' hne rest
    by_cases hm : r.id = i ∧ r.reference = getReferenceField cfg m
    · have hr' : ¬(r.id = i' ∧ r.reference = ref') := by
        rintro ⟨h1, h2⟩
        exact hne ⟨h1.symm.trans hm.1, h2.symm.trans hm.2⟩
      simp only [resetCounter, List.map_cons]
      rw [if_pos hm]
      simp only [findCounter]
      rw [if_neg hr', if_neg hr']
      simpa [resetCounter] using ih
    · simp only [resetCounter, List.map_cons]
      rw [if_neg hm]
      simp only [findCounter]
      by_cases hr' : r.id = i' ∧ r.reference = ref'
      · rw [if_pos hr', if_pos hr']
      · rw [if_neg hr', if_neg hr']
        simpa [resetCounter] using ih

/-- C5: a keyed reset matches stored records by exact equality of the
`(id, derived reference key)` pair: every matching record is set to 0 and
every non-matching record keeps its value; the next allocation on the reset
key returns 1 while any other pair's next allocation continues its own
sequence at `c + 1`. -/
theorem reset_key_exact_match (cfg : CounterState)
    (store : List CounterRecord) (i : String) (m : JsDoc) :
    (∀ (k : Nat) (r : CounterRecord), store[k]? = some r →
      ¬(r.id = i ∧ r.reference = getReferenceField cfg m) →
      (resetCounter cfg store i (some m))[k]? = some r) ∧
    (∀ (k : Nat) (r : CounterRecord), store[k]? = some r →
      r.id = i → r.reference = getReferenceField cfg m →
      (resetCounter cfg store i (some m))[k]? =
        some { r with counter := 0 }) ∧
    (∀ c : Nat, findCounter store i (getReferenceField cfg m) = some c →
      (findOneAndUpdate (resetCounter cfg store i (some m)) i
        (getReferenceField cfg m)).1 = 1) ∧
    (∀ (i' : String) (ref' : Option RefKey) (c : Nat),
      ¬(i' = i ∧ ref' = getReferenceField cfg m) →
      findCounter store i' ref' = some c →
      (findOneAndUpdate (resetCounter cfg store i (some m)) i' ref').1 =
        c + 1) := by
  refine ⟨fun k r hk hr => ?_, fun k r hk hr1 hr2 => ?_,
    fun c hc => ?_, fun i' ref' c hne hc => ?_⟩
  · simp [resetCounter, List.getElem?_map, hk, if_neg hr]
  · simp [resetCounter, List.getElem?_map, hk,
      if_pos (And.intro hr1 hr2)]
  · exact findOneAndUpdate_fst_some i (getReferenceField cfg m) 0 _
      (reset_key_findCounter_matching cfg i m c store hc)
  · refine findOneAndUpdate_fst_some i' ref' c _ ?_
    rw [reset_key_findCounter_other cfg i m i' ref' hne store]
    exact hc

/-- Witness for C5, the README scenario: after two FR/Paris and one US/NYC
insertions, resetting the FR/Paris key zeroes only that record, the next
FR/Paris allocation returns 1, and the US/NYC sequence yields 2 next. -/
theorem reset_key_exact_match_witness :
    (resetCounter cfgScoped [⟨"seq", some refFR, 2⟩, ⟨"seq", some refUS, 1⟩]
        "seq" (some [("country", .vStr "FR"), ("city", .vStr "Paris")]))[0]? =
      some ⟨"seq", some refFR, 0⟩ ∧
    (resetCounter cfgScoped [⟨"seq", some refFR, 2⟩, ⟨"seq", some refUS, 1⟩]
        "seq" (some [("country", .vStr "FR"), ("city", .vStr "Paris")]))[1]? =
      some ⟨"seq", some refUS, 1⟩ ∧
    (findOneAndUpdate (resetCounter cfgScoped
        [⟨"seq", some refFR, 2⟩, ⟨"seq", some refUS, 1⟩]
        "seq" (some [("country", .vStr "FR"), ("city", .vStr "Paris")]))
      "seq" (some refFR)).1 = 1 ∧
    (findOneAndUpdate (resetCounter cfgScoped
        [⟨"seq", some refFR, 2⟩, ⟨"seq", some refUS, 1⟩]
        "seq" (some [("country", .vStr "FR"), ("city", .vStr "Paris")]))
      "seq" (some refUS)).1 = 2 := by
  have h := reset_key_exact_match cfgScoped
    [⟨"seq", some refFR, 2⟩, ⟨"seq", some refUS, 1⟩] "seq"
    [("country", .vStr "FR"), ("city", .vStr "Paris")]
  refine ⟨?_, ?_, ?_, ?_⟩
  · exact h.2.1 0 ⟨"seq", some refFR, 2⟩ rfl rfl (by decide)
  · exact h.1 1 ⟨"seq", some refUS, 1⟩ rfl (by decide)
  · exact h.2.2.1 2 (by decide)
  · exact h.2.2.2 "seq" (some refUS) 1 (by decide) (by decide)

/-- C10: `resetCounter` re-derives the match key over exactly the configured
reference fields: the derived key depends only on the supplied mapping's
values at the configured fields (extraneous keys are ignored); a configured
field missing from the mapping enters the key as undefined; and when every
stored record of the scope carries a defined value for a configured field
the mapping omits, the keyed reset matches nothing and leaves the store
unchanged. -/
theorem reset_rederives_full_key (cfg : CounterState) :
    (∀ m1 m2 : JsDoc,
      (∀ f ∈ cfg.referenceFields, jsGet m1 f = jsGet m2 f) →
      getReferenceField cfg m1 = getReferenceField cfg m2) ∧
    (∀ (m : JsDoc) (f : String), cfg.useReference = true →
      f ∈ cfg.referenceFields → jsGet m f = none →
      ∃ key, getReferenceField cfg m = some key ∧ (f, none) ∈ key) ∧
    (∀ (store : List CounterRecord) (i : String) (m : JsDoc) (f : String),
      cfg.useReference = true →
      f ∈ cfg.referenceFields → jsGet m f = none →
      (∀ r ∈ store, r.id = i →
        ∃ key v, r.reference = some key ∧ refGet key f = some (some v)) →
      resetCounter cfg store i (some m) = store) := by
  refine ⟨fun m1 m2 hagree => ?_, fun m f huse hf hm => ?_,
    fun store i m f huse hf hm hstore => ?_⟩
  · by_cases huse : cfg.useReference = false
    · simp [getReferenceField, huse]
    · rw [getReferenceField, if_neg huse, getReferenceField, if_neg huse]
      exact congrArg some (List.map_congr_left fun f hf => by
        rw [hagree f hf])
  · refine ⟨cfg.referenceFields.map fun x => (x, jsGet m x), ?_, ?_⟩
    · rw [getReferenceField, if_neg (by simp [huse])]
    · exact List.mem_map.2 ⟨f, hf, by rw [hm]⟩
  · rw [resetCounter]
    refine Eq.trans (List.map_congr_left fun r hr => ?_) (List.map_id' store)
    by_cases hri : r.id = i ∧ r.reference = getReferenceField cfg m
    · exfalso
      rcases hstore r hr hri.1 with ⟨key, v, hkey, hv⟩
      have hcond : getReferenceField cfg m =
          some (cfg.referenceFields.map fun x => (x, jsGet m x)) := by
        rw [getReferenceField, if_neg (by simp [huse])]
      have hkeys : key = cfg.referenceFields.map fun x => (x, jsGet m x) := by
        have := hkey.symm.trans (hri.2.trans hcond)
        exact Option.some.inj this
      have hlook : refGet key f = some none := by
        rw [hkeys, refGet_map (fun x => jsGet m x) cfg.referenceFields f hf,
          hm]
      rw [hv] at hlook
      exact Option.noConfusion (Option.some.inj hlook)
    · exact if_neg hri

/-- Witness for C10: the derived key ignores extraneous supplied fields and
field order; a mapping missing `city` derives a key containing
`(city, undefined)`; resetting with such a partial mapping leaves a store
whose FR/Paris record has a defined city untouched. -/
theorem reset_rederives_full_key_witness :
    getReferenceField cfgScoped
        [("country", .vStr "FR"), ("city", .vStr "Paris"),
          ("extra", .vStr "x")] =
      getReferenceField cfgScoped
        [("city", .vStr "Paris"), ("country", .vStr "FR")] ∧
    (∃ key, getReferenceField cfgScoped [("country", .vStr "FR")] =
      some key ∧ ("city", none) ∈ key) ∧
    resetCounter cfgScoped [⟨"seq", some refFR, 2⟩] "seq"
        (some [("country", .vStr "FR")]) =
      [⟨"seq", some refFR, 2⟩] := by
  have h := reset_rederives_full_key cfgScoped
  refine ⟨?_, ?_, ?_⟩
  · exact h.1 [("country", .vStr "FR"), ("city", .vStr "Paris"),
      ("extra", .vStr "x")] [("city", .vStr "Paris"), ("country", .vStr "FR")]
      (by decide)
  · exact h.2.1 [("country", .vStr "FR")] "city" rfl (by decide) rfl
  · refine h.2.2 [⟨"seq", some refFR, 2⟩] "seq" [("country", .vStr "FR")]
      "city" rfl (by decide) rfl ?_
    intro r hr hid
    rw [List.mem_singleton] at hr
    subst hr
    exact ⟨refFR, .vStr "Paris", rfl, by decide⟩

end MongooseCounters
